import Mathlib

/- Shallow embedding of the backup-manager resource model (src/src/models.py).
   Paths are plain strings joined with "/"; the filesystem is a finite map from
   path strings to nodes (regular file, directory, zip archive).  The code under
   study truncates file times to whole seconds before comparing, so modification
   times are integers.  Python exceptions are modelled with Except; a
   try/except block in the source becomes a match that converts errors into a
   boolean result, and code outside a try block propagates errors. -/

inductive PyErr
  | ioErr
  | attrErr
  | assertErr
deriving DecidableEq

/-- The value of the private attribute holding a file's path relative to its
parent directory: None, a str (as produced by from_dict), or a PurePath (as
produced by in_dir).  Python distinguishes the three for truthiness, equality
and method lookup, so the embedding does too. -/
inductive AtPath
  | noneAt
  | strAt (s : String)
  | pathAt (s : String)
deriving DecidableEq

/-- Python as_posix on the at value: only a PurePath has the method, a str or
None raises AttributeError. -/
def AtPath.asPosix : AtPath → Except PyErr String
  | .pathAt s => .ok s
  | _ => .error .attrErr

/-- Python truthiness of the at value: None and the empty string are falsy,
every PurePath is truthy. -/
def AtPath.truthy : AtPath → Bool
  | .noneAt => false
  | .strAt s => !(s == "")
  | .pathAt _ => true

/-- One regular file on disk: mtime in whole seconds, content as bytes, and a
flag telling whether opening it for reading raises (permissions etc.). -/
structure FileData where
  mtime : Int
  content : List Nat
  openFails : Bool
deriving DecidableEq

inductive Node
  | file (d : FileData)
  | dir (mtime : Int)
  | zip (mtime : Int) (members : List (String × FileData))
deriving DecidableEq

structure FS where
  entries : List (String × Node)
deriving DecidableEq

def FS.lookupNode (fs : FS) (p : String) : Option Node :=
  (fs.entries.find? (fun e => e.1 == p)).map (fun e => e.2)

def FS.pathExists (fs : FS) (p : String) : Bool :=
  (FS.lookupNode fs p).isSome

/-- st_mtime of a path, already truncated to whole seconds (the code applies
math.trunc before comparing). Only queried on existing paths. -/
def FS.mtimeOf (fs : FS) (p : String) : Int :=
  match FS.lookupNode fs p with
  | some (.file d) => d.mtime
  | some (.dir m) => m
  | some (.zip m _) => m
  | none => 0

/-- Path.open for reading.  Opening a missing path or a directory raises; a
regular file raises when its openFails flag is set; reading a zip archive as a
plain file yields its raw bytes, which the code never inspects, so they are
modelled as the empty byte string. -/
def FS.openRead (fs : FS) (p : String) : Except PyErr (List Nat) :=
  match FS.lookupNode fs p with
  | some (.file d) => if d.openFails then .error .ioErr else .ok d.content
  | some (.zip _ _) => .ok []
  | some (.dir _) => .error .ioErr
  | none => .error .ioErr

/-- zipfile.is_zipfile: true exactly for readable zip archives; a missing
path, directory or non-archive file yields False (the library swallows OSError). -/
def FS.isZipfile (fs : FS) (p : String) : Bool :=
  match FS.lookupNode fs p with
  | some (.zip _ _) => true
  | _ => false

def FS.zipFind (fs : FS) (p member : String) : Option FileData :=
  match FS.lookupNode fs p with
  | some (.zip _ mem) => (mem.find? (fun e => e.1 == member)).map (fun e => e.2)
  | _ => none

/-- Write or overwrite one directory entry. -/
def FS.insert (fs : FS) (p : String) (n : Node) : FS :=
  ⟨(fs.entries.filter (fun e => !(e.1 == p))) ++ [(p, n)]⟩

def pjoin (a b : String) : String := a ++ "/" ++ b

/-- Last path component (pathlib name). -/
def nameOf (p : String) : String :=
  String.mk ((p.data.reverse.takeWhile (fun c => !(c == '/'))).reverse)

/-- pathlib parent: everything before the last slash, "." when there is none. -/
def parentOf (p : String) : String :=
  match p.data.reverse.dropWhile (fun c => !(c == '/')) with
  | [] => "."
  | _ :: tail => String.mk tail.reverse

/-- Path.suffix == ".zip" modelled as a suffix test on the path string. -/
def hasZipSuffix (p : String) : Bool :=
  List.isSuffixOf ".zip".data p.data

/-- mkdir(parents=True, exist_ok=True) on one path: a no-op when the directory
exists, an error when a non-directory sits there, otherwise the directory is
created. -/
def FS.mkdirP (fs : FS) (p : String) : Except PyErr FS :=
  match FS.lookupNode fs p with
  | some (.dir _) => .ok fs
  | some _ => .error .ioErr
  | none => .ok ⟨fs.entries ++ [(p, .dir 0)]⟩

/-- shutil.copy2: copies bytes and metadata (including mtime).  When the
destination is an existing directory the copy lands inside it under the
source's name.  Reading a directory or missing source raises; the fresh copy
is readable. -/
def FS.copy2 (fs : FS) (src dst : String) : Except PyErr FS :=
  let target := match FS.lookupNode fs dst with
    | some (.dir _) => pjoin dst (nameOf src)
    | _ => dst
  match FS.lookupNode fs src with
  | some (.file d) =>
      if d.openFails then .error .ioErr
      else .ok (FS.insert fs target (.file { d with openFails := false }))
  | some (.zip m mem) => .ok (FS.insert fs target (.zip m mem))
  | some (.dir _) => .error .ioErr
  | none => .error .ioErr

/-- Returns the path suffix relative to the given prefix, when it is one. -/
def dropPre (pre p : String) : Option String :=
  if List.isPrefixOf pre.data p.data then some (String.mk (p.data.drop pre.data.length))
  else none

/-- os.walk collapsed to the list of (relative path, data) for every regular
file strictly below the root. -/
def FS.filesUnder (fs : FS) (root : String) : List (String × FileData) :=
  fs.entries.filterMap (fun e =>
    match e.2 with
    | .file d =>
      match dropPre (root ++ "/") e.1 with
      | some rel => some (rel, d)
      | none => none
    | _ => none)

/-- BackupFile: origin and destiny paths, the optional member path inside a
parent directory, and the last-backup timestamp. -/
structure BackupFile where
  origin : String
  destiny : String
  at_path : AtPath
  last : Option Int
deriving DecidableEq

/-- BackupFile.__init__ / BackupMeta.__init__: stores the two paths and
nothing else — no existence or kind check of any sort is performed. -/
def BackupFile.mkInit (origin_path destiny_path : String) : BackupFile :=
  { origin := origin_path, destiny := destiny_path, at_path := .noneAt, last := none }

/-- BackupFile.is_extfile: the destiny is (or is named like) a zip archive and
the at value is truthy. -/
def BackupFile.is_extfile (fs : FS) (f : BackupFile) : Bool :=
  (FS.isZipfile fs f.destiny || hasZipSuffix f.destiny) && AtPath.truthy f.at_path

/-- BackupFile.are_different, transcribed line by line.  The destiny is opened
before any comparison; the mtime test keeps the source's chained comparison
`-1 < diff > 1`, which in Python means `-1 < diff and diff > 1`. -/
def BackupFile.are_different (fs : FS) (f : BackupFile) (strict : Bool) :
    Except PyErr Bool :=
  if !(FS.pathExists fs f.origin && FS.pathExists fs f.destiny) then .ok true
  else
    let om := FS.mtimeOf fs f.origin
    let dm := FS.mtimeOf fs f.destiny
    match FS.openRead fs f.destiny with
    | .error e => .error e
    | .ok dbytes =>
      let zres : Except PyErr (Option (Int × List Nat)) :=
        if FS.isZipfile fs f.destiny then
          match AtPath.asPosix f.at_path with
          | .error e => .error e
          | .ok atp =>
            match FS.zipFind fs f.destiny atp with
            | none => .ok none
            | some md =>
                if md.openFails then .error .ioErr
                else .ok (some (md.mtime, md.content))
        else .ok (some (dm, dbytes))
      match zres with
      | .error e => .error e
      | .ok none => .ok true
      | .ok (some (dm2, dbytes2)) =>
        if (-1 : Int) < om - dm2 ∧ om - dm2 > 1 then .ok true
        else if strict then
          match FS.openRead fs f.origin with
          | .error e => .error e
          | .ok obytes => if obytes ≠ dbytes2 then .ok true else .ok false
        else .ok false

/-- The try block of BackupFile.backup: create the destiny's parent, copy, set
the last-backup time; every exception is caught and turned into False. -/
def BackupFile.backupTry (fs : FS) (f : BackupFile) (now : Int) :
    FS × Except PyErr (BackupFile × Bool) :=
  match FS.mkdirP fs (parentOf f.destiny) with
  | .error _ => (fs, .ok (f, false))
  | .ok fs1 =>
    match FS.copy2 fs1 f.origin f.destiny with
    | .error _ => (fs1, .ok (f, false))
    | .ok fs2 => (fs2, .ok ({ f with last := some now }, true))

/-- BackupFile.backup.  The ext-file and origin-existence guards return False;
the change-detection guard calls are_different outside the try block, so an
exception raised there propagates. -/
def BackupFile.backup (fs : FS) (f : BackupFile) (now : Int) (force : Bool) :
    FS × Except PyErr (BackupFile × Bool) :=
  if BackupFile.is_extfile fs f then (fs, .ok (f, false))
  else if !FS.pathExists fs f.origin then (fs, .ok (f, false))
  else
    let skipCheck : Except PyErr Bool :=
      if force then .ok false
      else match BackupFile.are_different fs f false with
        | .error e => .error e
        | .ok d => .ok (!d)
    match skipCheck with
    | .error e => (fs, .error e)
    | .ok true => (fs, .ok (f, false))
    | .ok false => BackupFile.backupTry fs f now

/-- The try block of BackupFile.restore (destiny to origin, no timestamp
update); every exception is caught and turned into False. -/
def BackupFile.restoreTry (fs : FS) (f : BackupFile) :
    FS × Except PyErr (BackupFile × Bool) :=
  match FS.mkdirP fs (parentOf f.origin) with
  | .error _ => (fs, .ok (f, false))
  | .ok fs1 =>
    match FS.copy2 fs1 f.destiny f.origin with
    | .error _ => (fs1, .ok (f, false))
    | .ok fs2 => (fs2, .ok (f, true))

/-- BackupFile.restore, symmetric to backup: the change-detection guard is
outside the try block. -/
def BackupFile.restore (fs : FS) (f : BackupFile) (force : Bool) :
    FS × Except PyErr (BackupFile × Bool) :=
  if BackupFile.is_extfile fs f then (fs, .ok (f, false))
  else if !FS.pathExists fs f.destiny then (fs, .ok (f, false))
  else
    let skipCheck : Except PyErr Bool :=
      if force then .ok false
      else match BackupFile.are_different fs f false with
        | .error e => .error e
        | .ok d => .ok (!d)
    match skipCheck with
    | .error e => (fs, .error e)
    | .ok true => (fs, .ok (f, false))
    | .ok false => BackupFile.restoreTry fs f

/-- BackupDir: origin, destiny, the compress flag and the last-backup time. -/
structure BackupDir where
  origin : String
  destiny : String
  compress : Bool
  last : Option Int
deriving DecidableEq

/-- BackupDir.__init__: asserts that the origin path does not end in .zip and
stores the paths; no existence or kind check is performed. -/
def BackupDir.mkInit (origin_path destiny_path : String) (compress : Bool) :
    Except PyErr BackupDir :=
  if hasZipSuffix origin_path then .error .assertErr
  else .ok { origin := origin_path, destiny := destiny_path,
             compress := compress, last := none }

/-- BackupDir.walk from a given enumeration root (the _get_source result).
When the root is a zip archive the members are its stored names; otherwise the
files below the root.  Each member becomes a BackupFile.in_dir whose destiny is
the whole archive when the dir destiny is named .zip, else destiny/member. -/
def BackupDir.walkFrom (fs : FS) (d : BackupDir) (root : String) :
    List BackupFile :=
  match FS.lookupNode fs root with
  | some (.zip _ members) =>
      members.map (fun e =>
        { origin := pjoin d.origin e.1, destiny := d.destiny,
          at_path := .pathAt e.1, last := none })
  | _ =>
      (FS.filesUnder fs root).map (fun e =>
        { origin := pjoin d.origin e.1,
          destiny := if hasZipSuffix d.destiny then d.destiny else pjoin d.destiny e.1,
          at_path := .pathAt e.1, last := none })

/-- BackupDir.walk with the default source: the origin when it exists,
otherwise the destiny (_get_source with no argument). -/
def BackupDir.walkDefault (fs : FS) (d : BackupDir) : List BackupFile :=
  BackupDir.walkFrom fs d (if FS.pathExists fs d.origin then d.origin else d.destiny)

/-- The loop inside BackupDir.are_different: the first member that reports
different short-circuits to True; a member that raises propagates. -/
def anyDifferent (fs : FS) : List BackupFile → Bool → Except PyErr Bool
  | [], _ => .ok false
  | f :: rest, strict =>
    match BackupFile.are_different fs f strict with
    | .error e => .error e
    | .ok true => .ok true
    | .ok false => anyDifferent fs rest strict

/-- BackupDir.are_different: True when either side is missing, else True when
any walked member is different. -/
def BackupDir.are_different (fs : FS) (d : BackupDir) (strict : Bool) :
    Except PyErr Bool :=
  if !(FS.pathExists fs d.origin && FS.pathExists fs d.destiny) then .ok true
  else anyDifferent fs (BackupDir.walkDefault fs d) strict

/-- The falses policy argument of BackupDir.backup / restore. -/
inductive Falses
  | ret
  | ignore
deriving DecidableEq

/-- The loop inside the try block of BackupDir.backup: for each walked member,
make its destiny parent and delegate to BackupFile.backup; a member returning
False stops the loop with False under the return policy; any raise escapes the
loop (to be caught by the enclosing try). -/
def BackupDir.backupLoop (fs : FS) :
    List BackupFile → Int → Bool → Falses → FS × Except PyErr Bool
  | [], _, _, _ => (fs, .ok true)
  | f :: rest, now, force, falses =>
    match FS.mkdirP fs (parentOf f.destiny) with
    | .error e => (fs, .error e)
    | .ok fs1 =>
      match BackupFile.backup fs1 f now force with
      | (fs2, .error e) => (fs2, .error e)
      | (fs2, .ok (_, r)) =>
        if !r && falses = Falses.ret then (fs2, .ok false)
        else BackupDir.backupLoop fs2 rest now force falses

/-- Reading every file below the origin for the archive write; the first
unreadable file raises (caught by _save_compressed); fresh members are
readable.  The partial archive a mid-write failure leaves behind is not
modelled. -/
def buildZip : List (String × FileData) → Except PyErr (List (String × FileData))
  | [] => .ok []
  | (rel, dta) :: rest =>
    if dta.openFails then .error .ioErr
    else
      match buildZip rest with
      | .error e => .error e
      | .ok mem => .ok ((rel, { dta with openFails := false }) :: mem)

/-- BackupDir._save_compressed: the archive lands at destiny/originName.zip
when the destiny is an existing directory, else at destiny; every exception is
caught and turned into False. -/
def BackupDir.save_compressed (fs : FS) (d : BackupDir) (now : Int) :
    FS × Except PyErr (BackupDir × Bool) :=
  let dst := match FS.lookupNode fs d.destiny with
    | some (.dir _) => pjoin d.destiny (nameOf d.origin ++ ".zip")
    | _ => d.destiny
  match buildZip (FS.filesUnder fs d.origin) with
  | .error _ => (fs, .ok (d, false))
  | .ok members =>
      (FS.insert fs dst (.zip 0 members), .ok ({ d with last := some now }, true))

/-- The body of BackupDir.backup after the change-detection guard: the
compressed save, or the member loop wrapped in try/except with the timestamp
stamped only when the loop completes. -/
def BackupDir.backupCopyPhase (fs : FS) (d : BackupDir) (now : Int) (falses : Falses) :
    Bool → FS × Except PyErr (BackupDir × Bool) := fun force =>
  if d.compress then BackupDir.save_compressed fs d now
  else
    match BackupDir.backupLoop fs (BackupDir.walkFrom fs d d.origin) now force falses with
    | (fs1, .error _) => (fs1, .ok (d, false))
    | (fs1, .ok false) => (fs1, .ok (d, false))
    | (fs1, .ok true) => (fs1, .ok ({ d with last := some now }, true))

/-- BackupDir.backup: the change-detection guard (skipped entirely under
force) runs outside the try block, so an exception raised by are_different
propagates; afterwards the copy phase runs. -/
def BackupDir.backup (fs : FS) (d : BackupDir) (now : Int) (force : Bool)
    (falses : Falses) : FS × Except PyErr (BackupDir × Bool) :=
  let skipCheck : Except PyErr Bool :=
    if force then .ok false
    else match BackupDir.are_different fs d false with
      | .error e => .error e
      | .ok diff => .ok (!diff)
  match skipCheck with
  | .error e => (fs, .error e)
  | .ok true => (fs, .ok (d, false))
  | .ok false => BackupDir.backupCopyPhase fs d now falses force

/-- The two concrete resource kinds below BackupMeta. -/
inductive BackupMeta
  | file (f : BackupFile)
  | dir (d : BackupDir)
deriving DecidableEq

def BackupMeta.originOf : BackupMeta → String
  | .file f => f.origin
  | .dir d => d.origin

def BackupMeta.destinyOf : BackupMeta → String
  | .file f => f.destiny
  | .dir d => d.destiny

/-- Python == on resources (BackupFile.__eq__ / BackupDir.__eq__): same
concrete kind, same origin and destiny, plus the at value for files and the
compress flag for dirs; the last-backup time is ignored. -/
def BackupMeta.pyEq : BackupMeta → BackupMeta → Bool
  | .file f, .file g =>
      f.origin == g.origin && f.destiny == g.destiny && f.at_path == g.at_path
  | .dir x, .dir y =>
      x.origin == y.origin && x.destiny == y.destiny && x.compress == y.compress
  | _, _ => false

/-- meta.backup dispatched on the concrete kind, with the default falses
policy used by the list-level loop. -/
def BackupMeta.backup (fs : FS) (m : BackupMeta) (now : Int) (force : Bool) :
    FS × Except PyErr (BackupMeta × Bool) :=
  match m with
  | .file f =>
    match BackupFile.backup fs f now force with
    | (fs1, .error e) => (fs1, .error e)
    | (fs1, .ok (f1, r)) => (fs1, .ok (.file f1, r))
  | .dir d =>
    match BackupDir.backup fs d now force .ret with
    | (fs1, .error e) => (fs1, .error e)
    | (fs1, .ok (d1, r)) => (fs1, .ok (.dir d1, r))

/-- ResourcesArray: the list name and the ordered member resources. -/
structure ResourcesArray where
  name : String
  data : List BackupMeta
deriving DecidableEq

/-- ResourcesArray.backup over the whole array, fully consumed: members run in
list order, each yielding (result, resource); an exception raised by a member
terminates the iteration. -/
def ResourcesArray.backupAll (fs : FS) :
    List BackupMeta → Int → Bool → FS × Except PyErr (List (Bool × BackupMeta))
  | [], _, _ => (fs, .ok [])
  | m :: rest, now, force =>
    match BackupMeta.backup fs m now force with
    | (fs1, .error e) => (fs1, .error e)
    | (fs1, .ok (m1, r)) =>
      match ResourcesArray.backupAll fs1 rest now force with
      | (fs2, .error e) => (fs2, .error e)
      | (fs2, .ok results) => (fs2, .ok ((r, m1) :: results))

/-- ResourcesArray.pop with an int index: the index is turned into the slice
[index, index+1], and for each element of that slice the first list element
that compares equal to it is removed and the slice element yielded. -/
def ResourcesArray.pop (a : ResourcesArray) (i : Nat) :
    ResourcesArray × List BackupMeta :=
  match (a.data.drop i).take 1 with
  | [] => (a, [])
  | m :: _ => ({ a with data := a.data.eraseP (fun x => BackupMeta.pyEq x m) }, [m])

/-- A value offered to the membership test: a resource, or anything else. -/
inductive PyValue
  | meta (m : BackupMeta)
  | other

/-- ResourcesArray.__contains__: a resource is contained when some member has
the same (origin, destiny) pair — the kind, compress flag, at value and
timestamps are all ignored; any non-resource value is not contained. -/
def ResourcesArray.containsVal (a : ResourcesArray) : PyValue → Bool
  | .meta m => a.data.any (fun x =>
      BackupMeta.originOf x == BackupMeta.originOf m &&
      BackupMeta.destinyOf x == BackupMeta.destinyOf m)
  | .other => false

/-- One resource dict of the interchange format.  A none in compress or
at_path means the key is absent from the dict; at_path present with the
Python value None is some AtPath.noneAt. -/
structure MetaDict where
  origin_path : String
  destiny_path : String
  type : String
  last : Option Int
  compress : Option Bool
  at_path : Option AtPath
deriving DecidableEq

/-- BackupMeta.to_dict plus the subclass additions: files write their at
value, dirs their compress flag. -/
def BackupMeta.to_dict : BackupMeta → MetaDict
  | .file f =>
      { origin_path := f.origin, destiny_path := f.destiny, type := "file",
        last := f.last, compress := none, at_path := some f.at_path }
  | .dir d =>
      { origin_path := d.origin, destiny_path := d.destiny, type := "dir",
        last := d.last, compress := some d.compress, at_path := none }

/-- json.dump serializability of one dict: a PurePath at value cannot be
serialized (json raises TypeError); everything else in the dict is a plain
string, number, bool or null. -/
def MetaDict.jsonable (m : MetaDict) : Bool :=
  match m.at_path with
  | some (.pathAt _) => false
  | _ => true

/-- The exported JSON document. -/
structure ExportDoc where
  list_name : String
  content : List MetaDict
deriving DecidableEq

/-- ResourcesArray.export: the document written to disk, or none when
json.dump raises on an unserializable member. -/
def ResourcesArray.export (a : ResourcesArray) : Option ExportDoc :=
  let ds := a.data.map BackupMeta.to_dict
  if ds.all MetaDict.jsonable then some { list_name := a.name, content := ds }
  else none

/-- The truthiness filter in BackupMeta.from_dict: a last value of 0 (or an
absent one) is treated as never backed up. -/
def lastFromDict : Option Int → Option Int
  | some t => if t == 0 then none else some t
  | none => none

/-- BackupFile.from_dict: paths and at value straight from the dict (the at
value stays whatever the dict holds, a str or None). -/
def BackupFile.from_dict (m : MetaDict) : BackupFile :=
  { origin := m.origin_path, destiny := m.destiny_path,
    at_path := m.at_path.getD .noneAt, last := lastFromDict m.last }

/-- BackupDir.from_dict: compress defaults to False when absent. -/
def BackupDir.from_dict (m : MetaDict) : BackupDir :=
  { origin := m.origin_path, destiny := m.destiny_path,
    compress := (m.compress.getD false), last := lastFromDict m.last }

/-- ResourcesArray.from_import on a parsed document: dicts typed dir or file
are rebuilt in order, anything else is silently dropped. -/
def ResourcesArray.from_import (doc : ExportDoc) : ResourcesArray :=
  { name := doc.list_name,
    data := doc.content.filterMap (fun m =>
      if m.type == "dir" then some (.dir (BackupDir.from_dict m))
      else if m.type == "file" then some (.file (BackupFile.from_dict m))
      else none) }

/-- The (type, origin, destiny, compress) tuple of a member; files carry no
compress flag, rendered false. -/
def BackupMeta.tupleOf : BackupMeta → String × String × String × Bool
  | .file f => ("file", f.origin, f.destiny, false)
  | .dir d => ("dir", d.origin, d.destiny, d.compress)

/-- One registry slot: ResourcesArray defines no __eq__, so Python == on
lists is object identity; registry members are therefore modelled as tokens
carrying an identity and the list's name, the only attributes the registry
consults. -/
structure RListRef where
  rid : Nat
  name : String
deriving DecidableEq

/-- The registry (_AllLists): the member lists in order, and the optional
selected list. -/
structure AllLists where
  data : List RListRef
  selected : Option RListRef
deriving DecidableEq

/-- _AllLists.names. -/
def AllLists.names (s : AllLists) : List String :=
  s.data.map (fun a => a.name)

/-- _AllLists.add: __check_repetition raises RepetitionError (before any
mutation) when the name is taken; otherwise the list is appended, and it
becomes selected when it is the only member and nothing was selected. -/
def AllLists.add (s : AllLists) (v : RListRef) : AllLists × Bool :=
  if s.data.any (fun a => decide (a.name = v.name)) then (s, false)
  else
    let data1 := s.data ++ [v]
    let sel1 := if data1.length = 1 ∧ s.selected = none then some v else s.selected
    ({ data := data1, selected := sel1 }, true)

/-- _AllLists.pop: an invalid index raises IndexError before any mutation;
otherwise the selection is cleared when the popped entry is the selected one,
and the entry is removed and returned. -/
def AllLists.pop (s : AllLists) (i : Nat) : AllLists × Option RListRef :=
  match s.data[i]? with
  | none => (s, none)
  | some x =>
    let sel1 := if s.selected = some x then none else s.selected
    ({ data := s.data.eraseIdx i, selected := sel1 }, some x)

/-- _AllLists.remove: the selection is cleared first when the value is the
selected one; then the first equal member is removed (False stands for the
ValueError list.remove raises when the value is absent). -/
def AllLists.remove (s : AllLists) (v : RListRef) : AllLists × Bool :=
  let s1 := if s.selected = some v then { s with selected := none } else s
  if s.data.any (fun a => decide (a = v)) then
    ({ s1 with data := s1.data.eraseP (fun a => decide (a = v)) }, true)
  else (s1, false)

/-- _AllLists.select: an invalid index raises IndexError; otherwise the entry
at the index becomes selected and is returned. -/
def AllLists.select (s : AllLists) (i : Nat) : AllLists × Option RListRef :=
  match s.data[i]? with
  | none => (s, none)
  | some x => ({ s with selected := some x }, some x)

/-- The registry selection invariant: a selected list is a member. -/
def AllLists.selOk (s : AllLists) : Prop :=
  match s.selected with
  | none => True
  | some y => y ∈ s.data

/-- The regex fullmatch against a copy name, for a literal list name: the
source pattern is the string Copy, one single digit (the regex atom matches
exactly one digit character), of, and the name. -/
def matchesCopySingle (vname aname : String) : Bool :=
  match aname.data with
  | 'C' :: 'o' :: 'p' :: 'y' :: ' ' :: d :: ' ' :: 'o' :: 'f' :: ' ' :: rest =>
      d.isDigit && rest == vname.data
  | _ => false

/-- _AllLists.count_copies: 0 when the value is not a member (membership is
by name), else the number of members whose name fullmatches the copy
pattern. -/
def AllLists.count_copies (s : AllLists) (v : RListRef) : Nat :=
  if !(s.data.any (fun a => decide (a.name = v.name))) then 0
  else (s.data.filter (fun a => matchesCopySingle v.name a.name)).length

/-- Whether an optional node is a directory. -/
def isDirNode : Option Node → Bool
  | some (.dir _) => true
  | _ => false

/-- A plain top-level file resource between two regular files, for the
change-detection claims. -/
def fileC1 : BackupFile :=
  { origin := "o.txt", destiny := "d.txt", at_path := .noneAt, last := none }

/-- Two existing regular files with the given truncated mtimes; the destiny is
not a zip archive and both are readable. -/
def fsC1 (om dm : Int) : FS :=
  ⟨[("o.txt", .file ⟨om, [0], false⟩), ("d.txt", .file ⟨dm, [0], false⟩)]⟩

/-- An existing readable origin file next to a destiny that exists but is a
directory, so opening the destiny for reading raises. -/
def fsC2 : FS := ⟨[("o.txt", .file ⟨100, [1], false⟩), ("d", .dir 50)]⟩

def fileC2 : BackupFile :=
  { origin := "o.txt", destiny := "d", at_path := .noneAt, last := none }

/-- An origin tree and a destiny tree whose single member pair has equal
mtimes (so change detection reports not different) but different contents. -/
def fsC3 : FS :=
  ⟨[("src", .dir 1), ("src/a", .file ⟨10, [1], false⟩),
    ("dst", .dir 2), ("dst/a", .file ⟨10, [5], false⟩)]⟩

def dirC3 : BackupDir :=
  { origin := "src", destiny := "dst", compress := false, last := none }

/-- fsC3 after a forced backup: the member copy replaced the destiny content
(and metadata) with the origin's. -/
def fsC3forced : FS :=
  ⟨[("src", .dir 1), ("src/a", .file ⟨10, [1], false⟩),
    ("dst", .dir 2), ("dst/a", .file ⟨10, [1], false⟩)]⟩

/-- A file pair with equal mtimes and different contents, for the witness of
the force claim. -/
def fsC3w : FS := ⟨[("o", .file ⟨10, [1], false⟩), ("d", .file ⟨10, [5], false⟩)]⟩

def fileC3w : BackupFile :=
  { origin := "o", destiny := "d", at_path := .noneAt, last := none }

/-- fsC3w after mkdir of the destiny's parent "." (the parent did not exist,
so a directory entry was appended). -/
def fsC3w1 : FS :=
  ⟨[("o", .file ⟨10, [1], false⟩), ("d", .file ⟨10, [5], false⟩), (".", .dir 0)]⟩

/-- A two-member array (one file, one compressed dir) used to witness the
export round trip. -/
def arrC6 : ResourcesArray :=
  ⟨"L", [.file ⟨"o", "d", .noneAt, some 5⟩, .dir ⟨"p", "q", true, none⟩]⟩

/-- The document arrC6 exports to. -/
def docC6 : ExportDoc :=
  ⟨"L", [⟨"o", "d", "file", some 5, none, some .noneAt⟩,
         ⟨"p", "q", "dir", none, some true, none⟩]⟩

/-- Two file resources that Python == identifies (same origin, destiny and at
value) but that are distinguishable objects (different last-backup times). -/
def mC9a : BackupMeta := .file { origin := "o", destiny := "d", at_path := .noneAt, last := some 1 }

def mC9b : BackupMeta := .file { origin := "o", destiny := "d", at_path := .noneAt, last := some 2 }

/-- A one-member array holding a plain file resource, for the membership
claim. -/
def arrC10 : ResourcesArray :=
  ⟨"L", [.file { origin := "o", destiny := "d", at_path := .noneAt, last := none }]⟩

/-- C1: with both sides existing and the destiny a plain (non-zip) readable
file, are_different(strict=false) evaluates the source's chained comparison
`-1 < diff > 1`, which Python reads as `diff > 1`; so a destiny one second or
fifty seconds newer, and an origin exactly one second newer, all report NOT
different, while only an origin at least two seconds newer reports different;
equal truncated mtimes report not different.  The claim (any whole-second
mismatch reports different) fails at these inputs. -/
theorem C1_mtime_mismatch_not_detected :
    BackupFile.are_different (fsC1 100 101) fileC1 false = .ok false ∧
    BackupFile.are_different (fsC1 100 150) fileC1 false = .ok false ∧
    BackupFile.are_different (fsC1 101 100) fileC1 false = .ok false ∧
    BackupFile.are_different (fsC1 102 100) fileC1 false = .ok true ∧
    BackupFile.are_different (fsC1 100 100) fileC1 false = .ok false :=
  ⟨rfl, rfl, rfl, rfl, rfl⟩

/-- C8: count_copies matches a single digit only (the pattern uses one digit
atom), so with members named A and "Copy 10 of A" it returns 0 where the claim
expects 1; with an additional "Copy 3 of A" it returns 1 where the claim
expects 2; and it returns 0 when the queried list is not a member (by name). -/
theorem C8_count_copies_misses_multidigit :
    AllLists.count_copies ⟨[⟨0, "A"⟩, ⟨1, "Copy 10 of A"⟩], none⟩ ⟨0, "A"⟩ = 0 ∧
    AllLists.count_copies ⟨[⟨0, "A"⟩, ⟨2, "Copy 3 of A"⟩, ⟨1, "Copy 10 of A"⟩], none⟩ ⟨0, "A"⟩ = 1 ∧
    AllLists.count_copies ⟨[⟨1, "Copy 10 of A"⟩], none⟩ ⟨0, "A"⟩ = 0 :=
  ⟨rfl, rfl, rfl⟩

/-- C7 counterexample: on an empty filesystem, the FileResource constructor
succeeds for a nonexistent origin (it performs no check at all), and the
DirResource constructor succeeds for a nonexistent origin as well — no
ValidationError is raised and resource objects with such origins are
created. -/
theorem C7_constructed_without_origin :
    BackupFile.mkInit "missing.txt" "backup.txt" =
      { origin := "missing.txt", destiny := "backup.txt", at_path := .noneAt, last := none } ∧
    FS.pathExists ⟨[]⟩ "missing.txt" = false ∧
    BackupDir.mkInit "missingdir" "bdir" false =
      .ok { origin := "missingdir", destiny := "bdir", compress := false, last := none } ∧
    FS.pathExists ⟨[]⟩ "missingdir" = false :=
  ⟨rfl, rfl, rfl, rfl⟩

/-- C7 amended: construction performs no existence or kind validation — the
FileResource constructor always succeeds and merely stores the paths, and the
DirResource constructor checks only (by assertion) that the origin path does
not end in .zip, succeeding on every other origin and failing exactly on a
.zip-suffixed one. -/
theorem C7_constructor_stores_paths_only (o d : String) (c : Bool) :
    BackupFile.mkInit o d = { origin := o, destiny := d, at_path := .noneAt, last := none } ∧
    (hasZipSuffix o = false →
      BackupDir.mkInit o d c = .ok { origin := o, destiny := d, compress := c, last := none }) ∧
    (hasZipSuffix o = true → BackupDir.mkInit o d c = .error .assertErr) := by
  refine ⟨rfl, ?_, ?_⟩ <;> intro h <;> simp [BackupDir.mkInit, h]

/-- C7 witness: the amended statement applied at a concrete origin without
and with the .zip suffix. -/
theorem C7_constructor_stores_paths_only_witness :
    BackupFile.mkInit "a" "b" =
      { origin := "a", destiny := "b", at_path := .noneAt, last := none } ∧
    BackupDir.mkInit "a" "b" false =
      .ok { origin := "a", destiny := "b", compress := false, last := none } ∧
    BackupDir.mkInit "a.zip" "b" false = .error .assertErr :=
  ⟨(C7_constructor_stores_paths_only "a" "b" false).1,
   (C7_constructor_stores_paths_only "a" "b" false).2.1 (by decide),
   (C7_constructor_stores_paths_only "a.zip" "b" false).2.2 (by decide)⟩

/-- C5: adding a list whose name is already carried by some member fails (the
repetition check raises before any mutation), leaving the registry — its
length, membership and selection — exactly as it was. -/
theorem C5_duplicate_name_rejected_unchanged (s : AllLists) (v w : RListRef)
    (hw : w ∈ s.data) (hname : w.name = v.name) :
    AllLists.add s v = (s, false) := by
  have hdup : s.data.any (fun a => decide (a.name = v.name)) = true :=
    List.any_eq_true.mpr ⟨w, hw, by simp [hname]⟩
  simp [AllLists.add, hdup]

/-- C5 witness: a registry holding a list named A rejects a second list named
A and is left unchanged (length still 1, selection untouched). -/
theorem C5_duplicate_name_rejected_unchanged_witness :
    AllLists.add ⟨[⟨0, "A"⟩], some ⟨0, "A"⟩⟩ ⟨1, "A"⟩ =
      (⟨[⟨0, "A"⟩], some ⟨0, "A"⟩⟩, false) :=
  C5_duplicate_name_rejected_unchanged ⟨[⟨0, "A"⟩], some ⟨0, "A"⟩⟩ ⟨1, "A"⟩ ⟨0, "A"⟩
    (by decide) rfl

/-- C10: the membership test consults only the (origin, destiny) pair — two
resources with the same pair are interchangeable for it whatever their kind,
compress flag, at value or timestamps — and a non-resource value is never
contained; concretely, an array holding a plain file resource reports a dir
resource with the same pair as contained, and a file with another destiny as
not contained. -/
theorem C10_contains_origin_destiny_only :
    (∀ (a : ResourcesArray) (m m' : BackupMeta),
       BackupMeta.originOf m = BackupMeta.originOf m' →
       BackupMeta.destinyOf m = BackupMeta.destinyOf m' →
       ResourcesArray.containsVal a (.meta m) = ResourcesArray.containsVal a (.meta m')) ∧
    (∀ a : ResourcesArray, ResourcesArray.containsVal a .other = false) ∧
    ResourcesArray.containsVal arrC10
      (.meta (.dir { origin := "o", destiny := "d", compress := true, last := some 9 })) = true ∧
    ResourcesArray.containsVal arrC10
      (.meta (.file { origin := "o", destiny := "x", at_path := .noneAt, last := none })) = false := by
  refine ⟨?_, ?_, rfl, rfl⟩
  · intro a m m' h1 h2
    simp [ResourcesArray.containsVal, h1, h2]
  · intro a
    rfl

/-- C10 witness: the kind-independence part applied at a concrete array and a
concrete file/dir pair sharing origin and destiny. -/
theorem C10_contains_origin_destiny_only_witness :
    ResourcesArray.containsVal arrC10
      (.meta (.file { origin := "o", destiny := "d", at_path := .noneAt, last := none })) =
    ResourcesArray.containsVal arrC10
      (.meta (.dir { origin := "o", destiny := "d", compress := true, last := some 9 })) :=
  C10_contains_origin_destiny_only.1 arrC10 _ _ rfl rfl

/-- The try block of BackupFile.backup converts every exception into a False
result: it never re-raises. -/
theorem aux_backupTry_ok (fs : FS) (f : BackupFile) (now : Int) :
    ∃ fs1 r, BackupFile.backupTry fs f now = (fs1, Except.ok r) := by
  rcases h1 : FS.mkdirP fs (parentOf f.destiny) with e | fs1
  · exact ⟨fs, (f, false), by simp [BackupFile.backupTry, h1]⟩
  · rcases h2 : FS.copy2 fs1 f.origin f.destiny with e | fs2
    · exact ⟨fs1, (f, false), by simp [BackupFile.backupTry, h1, h2]⟩
    · exact ⟨fs2, ({ f with last := some now }, true), by simp [BackupFile.backupTry, h1, h2]⟩

/-- The try block of BackupFile.restore never re-raises either. -/
theorem aux_restoreTry_ok (fs : FS) (f : BackupFile) :
    ∃ fs1 r, BackupFile.restoreTry fs f = (fs1, Except.ok r) := by
  rcases h1 : FS.mkdirP fs (parentOf f.origin) with e | fs1
  · exact ⟨fs, (f, false), by simp [BackupFile.restoreTry, h1]⟩
  · rcases h2 : FS.copy2 fs1 f.destiny f.origin with e | fs2
    · exact ⟨fs1, (f, false), by simp [BackupFile.restoreTry, h1, h2]⟩
    · exact ⟨fs2, (f, true), by simp [BackupFile.restoreTry, h1, h2]⟩

/-- The post-guard body of BackupDir.backup (compressed save, or the member
loop inside try/except) never re-raises. -/
theorem aux_dirCopyPhase_ok (fs : FS) (d : BackupDir) (now : Int)
    (falses : Falses) (force : Bool) :
    ∃ fs1 r, BackupDir.backupCopyPhase fs d now falses force = (fs1, Except.ok r) := by
  cases hc : d.compress
  · rcases hL : BackupDir.backupLoop fs (BackupDir.walkFrom fs d d.origin) now force falses
      with ⟨fs1, res⟩
    rcases res with e | b
    · exact ⟨fs1, (d, false), by simp [BackupDir.backupCopyPhase, hc, hL]⟩
    · cases b
      · exact ⟨fs1, (d, false), by simp [BackupDir.backupCopyPhase, hc, hL]⟩
      · exact ⟨fs1, ({ d with last := some now }, true),
          by simp [BackupDir.backupCopyPhase, hc, hL]⟩
  · rcases hz : buildZip (FS.filesUnder fs d.origin) with e | mem
    · exact ⟨fs, (d, false),
        by simp [BackupDir.backupCopyPhase, BackupDir.save_compressed, hc, hz]⟩
    · unfold BackupDir.backupCopyPhase BackupDir.save_compressed
      rw [hc, hz]
      exact ⟨_, _, rfl⟩

/-- C2 counterexample: an existing, readable origin file whose destiny exists
but cannot be opened for reading (here: it is a directory).  Change detection
opens the destiny outside any try block, backup calls change detection outside
its own try block, so the exception escapes BackupFile.backup, and the
list-level iteration over a one-member array is terminated by it. -/
theorem C2_uncaught_change_detection_exception :
    BackupFile.are_different fsC2 fileC2 false = .error .ioErr ∧
    BackupFile.backup fsC2 fileC2 7 false = (fsC2, .error .ioErr) ∧
    ResourcesArray.backupAll fsC2 [.file fileC2] 7 false = (fsC2, .error .ioErr) :=
  ⟨rfl, rfl, rfl⟩

/-- C2 amended: exceptions raised inside the copy/archive phase of a resource
operation are caught there and become a False result — backup and restore of a
file, and backup of a dir, return normally whenever the change-detection step
either is skipped (force) or completes without raising; but an exception
raised by change detection during a non-forced operation is not caught: it
propagates out of BackupFile.backup, out of BackupFile.restore and out of
BackupDir.backup alike, and a member raising inside a list-level iteration
terminates that iteration. -/
theorem C2_exception_policy :
    (∀ (fs : FS) (f : BackupFile) (now : Int) (force : Bool),
       (force = true ∨ ∃ b, BackupFile.are_different fs f false = .ok b) →
       ∃ fs1 f1 r, BackupFile.backup fs f now force = (fs1, .ok (f1, r))) ∧
    (∀ (fs : FS) (f : BackupFile) (force : Bool),
       (force = true ∨ ∃ b, BackupFile.are_different fs f false = .ok b) →
       ∃ fs1 f1 r, BackupFile.restore fs f force = (fs1, .ok (f1, r))) ∧
    (∀ (fs : FS) (d : BackupDir) (now : Int) (force : Bool) (falses : Falses),
       (force = true ∨ ∃ b, BackupDir.are_different fs d false = .ok b) →
       ∃ fs1 d1 r, BackupDir.backup fs d now force falses = (fs1, .ok (d1, r))) ∧
    (∀ (fs : FS) (f : BackupFile) (now : Int) (e : PyErr),
       BackupFile.is_extfile fs f = false →
       FS.pathExists fs f.origin = true →
       BackupFile.are_different fs f false = .error e →
       BackupFile.backup fs f now false = (fs, .error e)) ∧
    (∀ (fs : FS) (f : BackupFile) (e : PyErr),
       BackupFile.is_extfile fs f = false →
       FS.pathExists fs f.destiny = true →
       BackupFile.are_different fs f false = .error e →
       BackupFile.restore fs f false = (fs, .error e)) ∧
    (∀ (fs : FS) (d : BackupDir) (now : Int) (falses : Falses) (e : PyErr),
       BackupDir.are_different fs d false = .error e →
       BackupDir.backup fs d now false falses = (fs, .error e)) ∧
    (∀ (fs fs1 : FS) (m : BackupMeta) (rest : List BackupMeta) (now : Int)
       (force : Bool) (e : PyErr),
       BackupMeta.backup fs m now force = (fs1, .error e) →
       ResourcesArray.backupAll fs (m :: rest) now force = (fs1, .error e)) := by
  refine ⟨?_, ?_, ?_, ?_, ?_, ?_, ?_⟩
  · intro fs f now force h
    cases hx : BackupFile.is_extfile fs f
    · cases ho : FS.pathExists fs f.origin
      · exact ⟨fs, f, false, by simp [BackupFile.backup, hx, ho]⟩
      · cases force
        · rcases h with h | ⟨b, hb⟩
          · exact absurd h (by simp)
          · cases b
            · exact ⟨fs, f, false, by simp [BackupFile.backup, hx, ho, hb]⟩
            · obtain ⟨fs1, r, hr⟩ := aux_backupTry_ok fs f now
              exact ⟨fs1, r.1, r.2, by simp [BackupFile.backup, hx, ho, hb, hr]⟩
        · obtain ⟨fs1, r, hr⟩ := aux_backupTry_ok fs f now
          exact ⟨fs1, r.1, r.2, by simp [BackupFile.backup, hx, ho, hr]⟩
    · exact ⟨fs, f, false, by simp [BackupFile.backup, hx]⟩
  · intro fs f force h
    cases hx : BackupFile.is_extfile fs f
    · cases ho : FS.pathExists fs f.destiny
      · exact ⟨fs, f, false, by simp [BackupFile.restore, hx, ho]⟩
      · cases force
        · rcases h with h | ⟨b, hb⟩
          · exact absurd h (by simp)
          · cases b
            · exact ⟨fs, f, false, by simp [BackupFile.restore, hx, ho, hb]⟩
            · obtain ⟨fs1, r, hr⟩ := aux_restoreTry_ok fs f
              exact ⟨fs1, r.1, r.2, by simp [BackupFile.restore, hx, ho, hb, hr]⟩
        · obtain ⟨fs1, r, hr⟩ := aux_restoreTry_ok fs f
          exact ⟨fs1, r.1, r.2, by simp [BackupFile.restore, hx, ho, hr]⟩
    · exact ⟨fs, f, false, by simp [BackupFile.restore, hx]⟩
  · intro fs d now force falses h
    cases force
    · rcases h with h | ⟨b, hb⟩
      · exact absurd h (by simp)
      · cases b
        · exact ⟨fs, d, false, by simp [BackupDir.backup, hb]⟩
        · obtain ⟨fs1, r, hr⟩ := aux_dirCopyPhase_ok fs d now falses false
          exact ⟨fs1, r.1, r.2, by simp [BackupDir.backup, hb, hr]⟩
    · obtain ⟨fs1, r, hr⟩ := aux_dirCopyPhase_ok fs d now falses true
      exact ⟨fs1, r.1, r.2, by simp [BackupDir.backup, hr]⟩
  · intro fs f now e hx ho hd
    simp [BackupFile.backup, hx, ho, hd]
  · intro fs f e hx ho hd
    simp [BackupFile.restore, hx, ho, hd]
  · intro fs d now falses e hd
    simp [BackupDir.backup, hd]
  · intro fs fs1 m rest now force e h
    simp [ResourcesArray.backupAll, h]

/-- C2 witness: the non-raising clause applied to a missing-origin resource
on the empty filesystem, where change detection completes with True. -/
theorem C2_exception_policy_witness :
    ∃ fs1 f1 r,
      BackupFile.backup ⟨[]⟩ (BackupFile.mkInit "a" "b") 3 false = (fs1, .ok (f1, r)) :=
  C2_exception_policy.1 ⟨[]⟩ (BackupFile.mkInit "a" "b") 3 false (Or.inr ⟨true, rfl⟩)

/-- C3: force bypasses change detection.  For a file resource that is not an
ext-file and whose origin exists, backup(force=true) never consults
are_different and goes straight to the copy: when the destiny parent is
makeable, the origin readable and the destiny not an existing directory, it
writes the origin's content and mtime over the destiny and reports True —
while backup(force=false) on an in-sync resource skips.  For a dir resource,
force=true likewise skips the guard entirely and runs the copy phase, and the
concrete trees fsC3 (synchronised mtimes, different member content) show a
forced dir backup rewriting the destiny member that unforced backup leaves
untouched. -/
theorem C3_force_bypasses_change_detection :
    (∀ (fs fs1 : FS) (f : BackupFile) (now : Int) (od : FileData),
       BackupFile.is_extfile fs f = false →
       FS.pathExists fs f.origin = true →
       FS.mkdirP fs (parentOf f.destiny) = .ok fs1 →
       FS.lookupNode fs1 f.origin = some (.file od) →
       od.openFails = false →
       isDirNode (FS.lookupNode fs1 f.destiny) = false →
       BackupFile.backup fs f now true =
         (FS.insert fs1 f.destiny (.file { od with openFails := false }),
          .ok ({ f with last := some now }, true))) ∧
    (∀ (fs : FS) (f : BackupFile) (now : Int),
       BackupFile.is_extfile fs f = false →
       FS.pathExists fs f.origin = true →
       BackupFile.are_different fs f false = .ok false →
       BackupFile.backup fs f now false = (fs, .ok (f, false))) ∧
    (∀ (fs : FS) (d : BackupDir) (now : Int) (falses : Falses),
       BackupDir.are_different fs d false = .ok false →
       BackupDir.backup fs d now false falses = (fs, .ok (d, false))) ∧
    (∀ (fs : FS) (d : BackupDir) (now : Int) (falses : Falses),
       BackupDir.backup fs d now true falses = BackupDir.backupCopyPhase fs d now falses true) ∧
    (BackupDir.are_different fsC3 dirC3 false = .ok false ∧
     BackupDir.backup fsC3 dirC3 99 false .ret = (fsC3, .ok (dirC3, false)) ∧
     BackupDir.backup fsC3 dirC3 99 true .ret =
       (fsC3forced, .ok ({ dirC3 with last := some 99 }, true)) ∧
     FS.lookupNode fsC3 "src/a" = some (.file ⟨10, [1], false⟩) ∧
     FS.lookupNode fsC3 "dst/a" = some (.file ⟨10, [5], false⟩) ∧
     FS.lookupNode fsC3forced "dst/a" = some (.file ⟨10, [1], false⟩)) := by
  refine ⟨?_, ?_, ?_, ?_, rfl, rfl, rfl, rfl, rfl, rfl⟩
  · intro fs fs1 f now od hx ho hmk hod hof hdn
    rcases hd2 : FS.lookupNode fs1 f.destiny with _ | n
    · simp [BackupFile.backup, hx, ho, BackupFile.backupTry, hmk, FS.copy2, hd2, hod, hof]
    · cases n with
      | file fd =>
        simp [BackupFile.backup, hx, ho, BackupFile.backupTry, hmk, FS.copy2, hd2, hod, hof]
      | dir m => rw [hd2] at hdn; exact absurd hdn (by simp [isDirNode])
      | zip m mem =>
        simp [BackupFile.backup, hx, ho, BackupFile.backupTry, hmk, FS.copy2, hd2, hod, hof]
  · intro fs f now hx ho hd
    simp [BackupFile.backup, hx, ho, hd]
  · intro fs d now falses hd
    simp [BackupDir.backup, hd]
  · intro fs d now falses
    rfl

/-- C3 witness: the file clauses applied to a concrete pair of files with
equal mtimes and different contents: the unforced backup skips, the forced
backup copies. -/
theorem C3_force_bypasses_change_detection_witness :
    BackupFile.backup fsC3w fileC3w 7 true =
      (FS.insert fsC3w1 "d" (.file ⟨10, [1], false⟩),
       .ok ({ fileC3w with last := some 7 }, true)) ∧
    BackupFile.backup fsC3w fileC3w 7 false = (fsC3w, .ok (fileC3w, false)) :=
  ⟨C3_force_bypasses_change_detection.1 fsC3w fsC3w1 fileC3w 7 ⟨10, [1], false⟩
     rfl rfl rfl rfl rfl rfl,
   C3_force_bypasses_change_detection.2.1 fsC3w fileC3w 7 rfl rfl rfl⟩

/-- An element fetched by valid index is a member. -/
theorem aux_mem_of_getElem {α : Type} {l : List α} {i : Nat} {a : α}
    (h : l[i]? = some a) : a ∈ l := by
  induction l generalizing i with
  | nil => simp at h
  | cons x t ih =>
    cases i with
    | zero =>
      simp only [List.getElem?_cons_zero, Option.some.injEq] at h
      simp [h]
    | succ n =>
      simp only [List.getElem?_cons_succ] at h
      exact List.mem_cons_of_mem _ (ih h)

/-- Removing the entry at an index keeps every member that differs from the
entry sitting there. -/
theorem aux_mem_eraseIdx {α : Type} {l : List α} {i : Nat} {x y : α}
    (hx : x ∈ l) (hne : x ≠ y) (hy : l[i]? = some y) : x ∈ l.eraseIdx i := by
  induction l generalizing i with
  | nil => cases hx
  | cons a t ih =>
    cases i with
    | zero =>
      simp only [List.getElem?_cons_zero, Option.some.injEq] at hy
      subst hy
      rcases List.mem_cons.mp hx with rfl | hx'
      · exact absurd rfl hne
      · simpa [List.eraseIdx] using hx'
    | succ n =>
      simp only [List.getElem?_cons_succ] at hy
      rcases List.mem_cons.mp hx with rfl | hx'
      · simp [List.eraseIdx]
      · simpa [List.eraseIdx] using Or.inr (ih hx' hy)

/-- Erasing the first element satisfying a predicate keeps every member the
predicate rejects. -/
theorem aux_mem_eraseP {α : Type} {l : List α} {x : α} {p : α → Bool}
    (hx : x ∈ l) (hp : p x = false) : x ∈ l.eraseP p := by
  induction l with
  | nil => cases hx
  | cons a t ih =>
    rcases List.mem_cons.mp hx with rfl | hx'
    · simp [List.eraseP_cons, hp]
    · cases hpa : p a
      · simpa [List.eraseP_cons, hpa] using Or.inr (ih hx')
      · simpa [List.eraseP_cons, hpa] using hx'

/-- C4: the selection invariant (a selected list is a member; in particular an
empty registry has no selection) is preserved by add (also when it raises),
pop, remove and select; adding the first list to an empty registry selects it;
popping or removing the selected list clears the selection. -/
theorem C4_selection_invariant :
    (∀ s : AllLists, AllLists.selOk s → s.data = [] → s.selected = none) ∧
    (∀ (s : AllLists) (v : RListRef), AllLists.selOk s → AllLists.selOk (AllLists.add s v).1) ∧
    (∀ (s : AllLists) (i : Nat), AllLists.selOk s → AllLists.selOk (AllLists.pop s i).1) ∧
    (∀ (s : AllLists) (v : RListRef), AllLists.selOk s → AllLists.selOk (AllLists.remove s v).1) ∧
    (∀ (s : AllLists) (i : Nat), AllLists.selOk s → AllLists.selOk (AllLists.select s i).1) ∧
    (∀ (s : AllLists) (v : RListRef), s.data = [] → s.selected = none →
       (AllLists.add s v).1.selected = some v) ∧
    (∀ (s : AllLists) (i : Nat) (x : RListRef), s.data[i]? = some x → s.selected = some x →
       (AllLists.pop s i).1.selected = none) ∧
    (∀ (s : AllLists) (v : RListRef), s.selected = some v →
       (AllLists.remove s v).1.selected = none) := by
  refine ⟨?_, ?_, ?_, ?_, ?_, ?_, ?_, ?_⟩
  · intro s h hd
    rcases s with ⟨data, sel⟩
    cases sel with
    | none => rfl
    | some y =>
      simp only [AllLists.selOk] at h
      subst hd
      simp at h
  · intro s v h
    rcases s with ⟨data, sel⟩
    cases hdup : (data.any fun a => decide (a.name = v.name))
    · simp only [AllLists.add, hdup, Bool.false_eq_true, if_false]
      by_cases hc : (data ++ [v]).length = 1 ∧ sel = none
      · simp [hc, AllLists.selOk]
      · simp only [if_neg hc]
        cases sel with
        | none => simp [AllLists.selOk]
        | some y =>
          simp only [AllLists.selOk] at h ⊢
          exact List.mem_append_left _ h
    · simpa [AllLists.add, hdup] using h
  · intro s i h
    rcases s with ⟨data, sel⟩
    rcases hg : data[i]? with _ | x
    · simpa [AllLists.pop, hg] using h
    · simp only [AllLists.pop, hg]
      by_cases hsx : sel = some x
      · simp [hsx, AllLists.selOk]
      · simp only [if_neg hsx]
        cases sel with
        | none => simp [AllLists.selOk]
        | some y =>
          simp only [AllLists.selOk] at h ⊢
          have hne : y ≠ x := fun hxy => hsx (by rw [hxy])
          exact aux_mem_eraseIdx h hne hg
  · intro s v h
    rcases s with ⟨data, sel⟩
    by_cases hsv : sel = some v
    · cases hmem : (data.any fun a => decide (a = v))
      · simp [AllLists.remove, hsv, hmem, AllLists.selOk]
      · simp [AllLists.remove, hsv, hmem, AllLists.selOk]
    · cases hmem : (data.any fun a => decide (a = v))
      · simpa [AllLists.remove, if_neg hsv, hmem] using h
      · simp only [AllLists.remove, if_neg hsv, hmem, if_true]
        cases sel with
        | none => simp [AllLists.selOk]
        | some y =>
          simp only [AllLists.selOk] at h ⊢
          have hne : y ≠ v := fun hxy => hsv (by rw [hxy])
          exact aux_mem_eraseP h (by simp [hne])
  · intro s i h
    rcases hg : s.data[i]? with _ | x
    · simpa [AllLists.select, hg] using h
    · simp only [AllLists.select, hg, AllLists.selOk]
      exact aux_mem_of_getElem hg
  · intro s v hd hsel
    rcases s with ⟨data, sel⟩
    subst hd
    subst hsel
    simp [AllLists.add]
  · intro s i x hg hsel
    simp [AllLists.pop, hg, hsel]
  · intro s v hsel
    cases hmem : (s.data.any fun a => decide (a = v))
    · simp [AllLists.remove, hsel, hmem]
    · simp [AllLists.remove, hsel, hmem]

/-- C4 witness: the invariant clauses applied to concrete registries — the
first add to an empty registry selects the added list, popping the selected
singleton clears the selection, removing the selected list clears it. -/
theorem C4_selection_invariant_witness :
    (AllLists.add ⟨[], none⟩ ⟨0, "A"⟩).1.selected = some ⟨0, "A"⟩ ∧
    (AllLists.pop ⟨[⟨0, "A"⟩], some ⟨0, "A"⟩⟩ 0).1.selected = none ∧
    (AllLists.remove ⟨[⟨0, "A"⟩], some ⟨0, "A"⟩⟩ ⟨0, "A"⟩).1.selected = none :=
  ⟨C4_selection_invariant.2.2.2.2.2.1 ⟨[], none⟩ ⟨0, "A"⟩ rfl rfl,
   C4_selection_invariant.2.2.2.2.2.2.1 ⟨[⟨0, "A"⟩], some ⟨0, "A"⟩⟩ 0 ⟨0, "A"⟩ rfl rfl,
   C4_selection_invariant.2.2.2.2.2.2.2 ⟨[⟨0, "A"⟩], some ⟨0, "A"⟩⟩ ⟨0, "A"⟩ rfl⟩

/-- Re-importing the dicts of a member list rebuilds members with the same
(type, origin, destiny, compress) tuples, in order. -/
theorem aux_import_tuples (l : List BackupMeta) :
    ((l.map BackupMeta.to_dict).filterMap (fun m =>
      if m.type == "dir" then some (BackupMeta.dir (BackupDir.from_dict m))
      else if m.type == "file" then some (BackupMeta.file (BackupFile.from_dict m))
      else none)).map BackupMeta.tupleOf = l.map BackupMeta.tupleOf := by
  induction l with
  | nil => rfl
  | cons m t ih =>
    cases m with
    | file f =>
      simpa [BackupMeta.to_dict, BackupMeta.tupleOf, BackupFile.from_dict] using ih
    | dir d =>
      simpa [BackupMeta.to_dict, BackupMeta.tupleOf, BackupDir.from_dict] using ih

/-- C6: when export succeeds, importing the produced document gives back the
same list name and members with the same (type, origin, destiny, compress)
tuples in the same order. -/
theorem C6_export_import_round_trip (a : ResourcesArray) (doc : ExportDoc)
    (h : ResourcesArray.export a = some doc) :
    (ResourcesArray.from_import doc).name = a.name ∧
    (ResourcesArray.from_import doc).data.map BackupMeta.tupleOf =
      a.data.map BackupMeta.tupleOf := by
  unfold ResourcesArray.export at h
  cases hall : ((a.data.map BackupMeta.to_dict).all MetaDict.jsonable)
  · simp [hall] at h
  · simp only [hall, if_true] at h
    rw [Option.some.injEq] at h
    subst h
    exact ⟨rfl, aux_import_tuples a.data⟩

/-- C6 witness: the round trip applied to a concrete two-member array (one
file with a last-backup time, one compressed dir) and its export document. -/
theorem C6_export_import_round_trip_witness :
    (ResourcesArray.from_import docC6).data.map BackupMeta.tupleOf =
      arrC6.data.map BackupMeta.tupleOf :=
  (C6_export_import_round_trip arrC6 docC6 rfl).2

/-- Taking one element of a drop at a valid index is the element there. -/
theorem aux_drop_take_one {α : Type} (l : List α) (i : Nat) (h : i < l.length) :
    (l.drop i).take 1 = [l.get ⟨i, h⟩] := by
  induction l generalizing i with
  | nil => simp at h
  | cons a t ih =>
    cases i with
    | zero => rfl
    | succ n =>
      have hn : n < t.length := by simpa using h
      simpa using ih n hn

/-- C9: pop on an int index removes whatever element compares Python-equal to
the element at that index FIRST in the list, and yields the element at the
index; with duplicates that are equal but distinguishable (equality ignores
the last-backup time), pop(1) removes the object at index 0 while the object
at index 1 stays in the list. -/
theorem C9_pop_removes_first_equal :
    (∀ (a : ResourcesArray) (i : Nat) (h : i < a.data.length),
       ResourcesArray.pop a i =
         ({ a with data := a.data.eraseP (fun x => BackupMeta.pyEq x (a.data.get ⟨i, h⟩)) },
          [a.data.get ⟨i, h⟩])) ∧
    (BackupMeta.pyEq mC9a mC9b = true ∧ mC9a ≠ mC9b ∧
     ResourcesArray.pop ⟨"L", [mC9a, mC9b]⟩ 1 = (⟨"L", [mC9b]⟩, [mC9b])) := by
  refine ⟨?_, rfl, by decide, rfl⟩
  intro a i h
  unfold ResourcesArray.pop
  rw [aux_drop_take_one a.data i h]

/-- C9 witness: the general clause applied to the concrete duplicate pair. -/
theorem C9_pop_removes_first_equal_witness :
    ResourcesArray.pop ⟨"L", [mC9a, mC9b]⟩ 1 = (⟨"L", [mC9b]⟩, [mC9b]) :=
  C9_pop_removes_first_equal.1 ⟨"L", [mC9a, mC9b]⟩ 1 (by decide)
